import Mathlib

/-!
Verification of the mesh packet engine of src/modules/lora/meshtastic_protocol.py
(with the inbound pipeline wiring of src/modules/lora/lora_module.py).

Shallow embedding conventions:
- Python bytes are List Nat (each element a byte value; byte-range constraints
  appear as explicit hypotheses where a claim needs them).
- Python int fields of packets are Nat (node ids, packet ids, ports, hop counts
  are all nonnegative in every reachable state of the program).
- time.time() timestamps are Int values threaded explicitly (the float clock is
  used only for subtraction and comparison against integer thresholds).
- Python dicts (insertion ordered) are association lists; dictSet models
  d[k] = v, dictHas models the k in d test, dictGet? models d.get(k).
- struct.pack / struct.unpack failures and the surrounding try/except blocks
  become the explicit range guards and error branches of the same functions:
  encode_packet returns [] where the Python returns b'' from its except clause,
  decode_packet returns none where the Python returns None; decodeE refines
  decode_packet with the distinct failure branches of the source (the explicit
  length check, the struct.error of the 2-byte length unpack, the checksum
  comparison that logs a checksum-mismatch warning).
-/

deriving instance DecidableEq for Except

namespace Meshtastic

/-- PortNum.UNKNOWN_APP from the PortNum IntEnum. -/
def PortNum.UNKNOWN_APP : Nat := 0

/-- PortNum.TEXT_MESSAGE_APP from the PortNum IntEnum. -/
def PortNum.TEXT_MESSAGE_APP : Nat := 1

/-- PortNum.POSITION_APP from the PortNum IntEnum. -/
def PortNum.POSITION_APP : Nat := 3

/-- PortNum.NODEINFO_APP from the PortNum IntEnum. -/
def PortNum.NODEINFO_APP : Nat := 4

/-- PortNum.ROUTING_APP from the PortNum IntEnum. -/
def PortNum.ROUTING_APP : Nat := 5

/-- PortNum.PRIVATE_APP from the PortNum IntEnum: the one member above 255. -/
def PortNum.PRIVATE_APP : Nat := 256

/-- MeshtasticProtocol.BROADCAST_ADDR. -/
def BROADCAST_ADDR : Nat := 0xFFFFFFFF

/-- MeshtasticProtocol.PACKET_TIMEOUT_MS divided by 1000, as used by
_clean_old_packets (300 seconds). -/
def PACKET_TIMEOUT_S : Int := 300

/-- Stale-node timeout of get_mesh_nodes (600 seconds). -/
def STALE_TIMEOUT : Int := 600

/-- The MeshPacket dataclass. rx_snr is a float in Python but is only ever
stored and copied, never computed with, so an Int stands in for it. -/
structure MeshPacket where
  «to» : Nat
  from_node : Nat
  id : Nat
  hop_limit : Nat := 3
  want_ack : Bool := false
  port_num : Nat := PortNum.TEXT_MESSAGE_APP
  payload : List Nat := []
  rx_time : Nat := 0
  rx_snr : Int := 0
  rx_rssi : Int := 0
  hop_start : Nat := 0
  deriving Repr, DecidableEq

/-- One value of the per-node dict kept in MeshtasticProtocol.nodes
(keys id, last_seen, rssi, snr). -/
structure NodeEntry where
  id : Nat
  last_seen : Int
  rssi : Int
  snr : Int
  deriving Repr, DecidableEq

/-- Mutable state of a MeshtasticProtocol instance: node_id,
packet_id_counter, seen_packets (dict packet_id -> timestamp), nodes
(dict node_id -> NodeEntry). -/
structure MeshtasticProtocol where
  node_id : Nat
  packet_id_counter : Nat
  seen_packets : List (Nat × Int)
  nodes : List (Nat × NodeEntry)
  deriving Repr, DecidableEq

/-- Python k in d on an insertion-ordered dict modelled as an association
list. -/
def dictHas {α : Type} (m : List (Nat × α)) (k : Nat) : Bool :=
  m.any (fun e => e.1 == k)

/-- Python d.get(k). -/
def dictGet? {α : Type} (m : List (Nat × α)) (k : Nat) : Option α :=
  (m.find? (fun e => e.1 == k)).map Prod.snd

/-- Python d[k] = v: update in place if the key exists, else append
(insertion order preserved). -/
def dictSet {α : Type} (m : List (Nat × α)) (k : Nat) (v : α) : List (Nat × α) :=
  if dictHas m k then m.map (fun e => if e.1 == k then (k, v) else e)
  else m ++ [(k, v)]

/-- Little-endian 4-byte encoding used by struct.pack of an I field (only
applied under the guard x less than 2 to the 32). -/
def le4 (x : Nat) : List Nat :=
  [x % 256, x / 256 % 256, x / 65536 % 256, x / 16777216 % 256]

/-- Little-endian 2-byte encoding used by struct.pack of an H field (only
applied under the guard x less than 65536). -/
def le2 (x : Nat) : List Nat :=
  [x % 256, x / 256 % 256]

/-- The flags byte of encode_packet: hop_limit in bits 0-2 (hop_limit and 0x07),
want_ack in bit 3. -/
def flagsOf (p : MeshPacket) : Nat :=
  p.hop_limit % 8 + (if p.want_ack then 8 else 0)

/-- The range conditions under which none of the struct.pack calls of
encode_packet raises: the three I fields, the B port field, the H length
field. (All other packed bytes are in range by construction.) -/
def encodeOk (p : MeshPacket) : Prop :=
  p.to < 4294967296 ∧ p.from_node < 4294967296 ∧ p.id < 4294967296 ∧
    p.port_num < 256 ∧ p.payload.length < 65536

instance (p : MeshPacket) : Decidable (encodeOk p) := by
  unfold encodeOk; infer_instance

/-- The bytes before the checksum: header (to, from, id, flags, port_num,
truncated 1-byte length), 2-byte length, payload. -/
def encodeBody (p : MeshPacket) : List Nat :=
  le4 p.to ++ le4 p.from_node ++ le4 p.id ++
    [flagsOf p, p.port_num, p.payload.length % 256] ++
    le2 p.payload.length ++ p.payload

/-- MeshtasticProtocol.encode_packet: body plus one additive-checksum byte;
the except clause of the source returns b'' when a struct.pack call raises,
i.e. exactly when encodeOk fails. -/
def encode_packet (p : MeshPacket) : List Nat :=
  if encodeOk p then encodeBody p ++ [(encodeBody p).sum % 256]
  else []

/-- Failure branches of MeshtasticProtocol.decode_packet: the explicit
length check, a struct.error escaping to the except clause, and the
checksum comparison. -/
inductive DecodeErr where
  | tooShort
  | unpackError
  | checksumMismatch
  deriving Repr, DecidableEq

/-- MeshtasticProtocol.decode_packet with its three failure branches kept
distinct: the len(data) < 16 check, the struct.unpack of data[15:17]
(raises struct.error unless the slice has exactly 2 bytes), the checksum
comparison of data[-1] against sum(data[:-1]) mod 256. Field extraction
mirrors the source: little-endian multi-byte fields from data[:15],
hop_limit from flags bits 0-2, want_ack from flags bit 3, payload as the
slice data[17:17+payload_length] (silently truncated at the end of data,
as Python slicing is). -/
def decodeE (data : List Nat) : Except DecodeErr MeshPacket :=
  if data.length < 16 then .error .tooShort
  else if ((data.drop 15).take 2).length ≠ 2 then .error .unpackError
  else if data.getD (data.length - 1) 0 ≠ (data.take (data.length - 1)).sum % 256 then
    .error .checksumMismatch
  else
    .ok { «to» := data.getD 0 0 + 256 * data.getD 1 0 + 65536 * data.getD 2 0 +
                16777216 * data.getD 3 0
          from_node := data.getD 4 0 + 256 * data.getD 5 0 + 65536 * data.getD 6 0 +
                16777216 * data.getD 7 0
          id := data.getD 8 0 + 256 * data.getD 9 0 + 65536 * data.getD 10 0 +
                16777216 * data.getD 11 0
          hop_limit := data.getD 12 0 % 8
          want_ack := data.getD 12 0 / 8 % 2 == 1
          port_num := data.getD 13 0
          payload := (data.drop 17).take (data.getD 15 0 + 256 * data.getD 16 0) }

/-- MeshtasticProtocol.decode_packet as the source exposes it: one Optional
return value, None for every failure branch. -/
def decode_packet (data : List Nat) : Option MeshPacket :=
  (decodeE data).toOption

/-- MeshtasticProtocol._get_next_packet_id: increment, wrap to 0 above
0xFFFFFFFF, return the new counter value. -/
def getNextPacketId (st : MeshtasticProtocol) : MeshtasticProtocol × Nat :=
  let c0 := st.packet_id_counter + 1
  let c := if c0 > 0xFFFFFFFF then 0 else c0
  ({ st with packet_id_counter := c }, c)

/-- MeshtasticProtocol.send_text: build the packet (hop_limit 3, text port,
from_node = own node id), record its id as seen at the current time, return
it. textBytes is text.encode(utf-8). -/
def send_text (st : MeshtasticProtocol) (textBytes : List Nat) («to» : Nat)
    (now : Int) : MeshtasticProtocol × MeshPacket :=
  let r := getNextPacketId st
  let packet : MeshPacket :=
    { «to» := «to», from_node := st.node_id, id := r.2, hop_limit := 3,
      want_ack := false, port_num := PortNum.TEXT_MESSAGE_APP,
      payload := textBytes }
  ({ r.1 with seen_packets := dictSet r.1.seen_packets packet.id now }, packet)

/-- MeshtasticProtocol.should_rebroadcast: false if the id is in
seen_packets, false if hop_limit is exhausted, false if the packet is
addressed exactly to us, true otherwise. -/
def should_rebroadcast (st : MeshtasticProtocol) (packet : MeshPacket) : Bool :=
  if dictHas st.seen_packets packet.id then false
  else if packet.hop_limit ≤ 0 then false
  else if packet.to == st.node_id then false
  else true

/-- MeshtasticProtocol._clean_old_packets: drop seen-packet entries older
than PACKET_TIMEOUT_S. -/
def cleanOldPackets (st : MeshtasticProtocol) (now : Int) : MeshtasticProtocol :=
  { st with seen_packets :=
      st.seen_packets.filter (fun e => !(now - e.2 > PACKET_TIMEOUT_S)) }

/-- MeshtasticProtocol._update_node: insert or refresh the sender's node
entry with the current time and the packet's reception quality fields. -/
def updateNode (st : MeshtasticProtocol) (nid : Nat) (packet : MeshPacket)
    (now : Int) : MeshtasticProtocol :=
  if dictHas st.nodes nid then
    { st with nodes := st.nodes.map (fun e =>
        if e.1 == nid then
          (e.1,
            { e.2 with
                last_seen := now
                rssi := packet.rx_rssi
                snr := packet.rx_snr })
        else e) }
  else
    { st with nodes := st.nodes ++
        [(nid, { id := nid, last_seen := now, rssi := packet.rx_rssi,
                 snr := packet.rx_snr })] }

/-- Strict UTF-8 validity as Python bytes.decode(utf-8) checks it: no bytes
above 0xF4, no overlong forms (0xC0/0xC1 lead bytes rejected, constrained
first continuation after 0xE0 and 0xF0), no surrogates (constrained first
continuation after 0xED), nothing above U+10FFFF (constrained first
continuation after 0xF4). -/
def utf8Valid : List Nat → Bool
  | [] => true
  | b :: rest =>
    if b < 0x80 then utf8Valid rest
    else if 0xC2 ≤ b ∧ b ≤ 0xDF then
      match rest with
      | c1 :: rest2 =>
        if 0x80 ≤ c1 ∧ c1 ≤ 0xBF then utf8Valid rest2 else false
      | [] => false
    else if 0xE0 ≤ b ∧ b ≤ 0xEF then
      match rest with
      | c1 :: c2 :: rest2 =>
        if (if b = 0xE0 then 0xA0 else 0x80) ≤ c1 ∧
            c1 ≤ (if b = 0xED then 0x9F else 0xBF) ∧
            0x80 ≤ c2 ∧ c2 ≤ 0xBF then utf8Valid rest2 else false
      | _ => false
    else if 0xF0 ≤ b ∧ b ≤ 0xF4 then
      match rest with
      | c1 :: c2 :: c3 :: rest2 =>
        if (if b = 0xF0 then 0x90 else 0x80) ≤ c1 ∧
            c1 ≤ (if b = 0xF4 then 0x8F else 0xBF) ∧
            0x80 ≤ c2 ∧ c2 ≤ 0xBF ∧ 0x80 ≤ c3 ∧ c3 ≤ 0xBF then utf8Valid rest2
        else false
      | _ => false
    else false

/-- Delivery decision of process_received_packet: a message is surfaced only
for packets addressed to us or broadcast, on the text port, whose payload
decodes as UTF-8 (the except clause around payload.decode returns None).
The NODEINFO and POSITION branches of the source log and return None, as
does every other port. The surfaced message is identified with its UTF-8
byte sequence. -/
def deliverMessage (node_id : Nat) (packet : MeshPacket) : Option (List Nat) :=
  if packet.to == node_id || packet.to == BROADCAST_ADDR then
    if packet.port_num == PortNum.TEXT_MESSAGE_APP then
      if utf8Valid packet.payload then some packet.payload else none
    else none
  else none

/-- MeshtasticProtocol.process_received_packet: record the id as seen at the
current time, clean old seen entries, refresh the sender's node entry, then
the delivery decision. Returns the updated state and the surfaced message. -/
def process_received_packet (st : MeshtasticProtocol) (packet : MeshPacket)
    (now : Int) : MeshtasticProtocol × Option (List Nat) :=
  let st1 := { st with seen_packets := dictSet st.seen_packets packet.id now }
  let st2 := cleanOldPackets st1 now
  let st3 := updateNode st2 packet.from_node packet now
  (st3, deliverMessage st.node_id packet)

/-- MeshtasticProtocol.rebroadcast_packet: a fresh MeshPacket with only
hop_limit decremented, reception-side fields at their defaults. -/
def rebroadcast_packet (packet : MeshPacket) : MeshPacket :=
  { «to» := packet.to, from_node := packet.from_node, id := packet.id,
    hop_limit := packet.hop_limit - 1, want_ack := packet.want_ack,
    port_num := packet.port_num, payload := packet.payload }

/-- Uppercase hex digit as a byte, as format X produces. -/
def hexDigitByte (n : Nat) : Nat := if n < 10 then 48 + n else 55 + n

/-- Hex digits of x, least significant first; the first argument is fuel
(x itself always suffices since a number has at most x hex digits). -/
def natHexRev : Nat → Nat → List Nat
  | 0, _ => []
  | fuel + 1, x => if x = 0 then [] else hexDigitByte (x % 16) :: natHexRev fuel (x / 16)

/-- Format 08X of Python: uppercase hex, zero-padded on the left to width 8. -/
def hex8 (x : Nat) : List Nat :=
  let ds := (natHexRev x x).reverse
  List.replicate (8 - ds.length) 48 ++ ds

/-- MeshtasticProtocol.send_node_info: broadcast NodeInfo packet whose
payload is the UTF-8 bytes of Node:0x followed by the node id in 08X
format. The source does not record the packet id in seen_packets. -/
def send_node_info (st : MeshtasticProtocol) : MeshtasticProtocol × MeshPacket :=
  let r := getNextPacketId st
  let node_info := [78, 111, 100, 101, 58, 48, 120] ++ hex8 st.node_id
  (r.1, { «to» := BROADCAST_ADDR, from_node := st.node_id, id := r.2,
          hop_limit := 3, want_ack := false, port_num := PortNum.NODEINFO_APP,
          payload := node_info })

/-- MeshtasticProtocol.get_mesh_nodes: the node entries seen within the last
STALE_TIMEOUT seconds, in dict (insertion) order. -/
def get_mesh_nodes (st : MeshtasticProtocol) (now : Int) : List NodeEntry :=
  (st.nodes.map Prod.snd).filter (fun node => now - node.last_seen < STALE_TIMEOUT)

/-- The meshtastic branch of LoRaModule.receive_messages, state changes and
decisions only: decode the frame; on success process it, then consult
should_rebroadcast on the resulting state and, when it allows, build the
rebroadcast packet. Returns the new state, the surfaced message, the
flood-forward decision, and the rebroadcast packet if one is produced. -/
def receive_inbound (st : MeshtasticProtocol) (data : List Nat) (now : Int) :
    MeshtasticProtocol × Option (List Nat) × Bool × Option MeshPacket :=
  match decode_packet data with
  | none => (st, none, false, none)
  | some packet =>
    let r := process_received_packet st packet now
    if should_rebroadcast r.1 packet then
      (r.1, r.2, true, some (rebroadcast_packet packet))
    else
      (r.1, r.2, false, none)

/-- Node A of the spec scenario: fresh engine with node id 0x10000001 and
counter 0 (so the first allocated packet id is 1). -/
def stA0 : MeshtasticProtocol :=
  { node_id := 0x10000001, packet_id_counter := 0, seen_packets := [], nodes := [] }

/-- UTF-8 bytes of hello. -/
def helloBytes : List Nat := [104, 101, 108, 108, 111]

/-- The frame node A transmits for a broadcast send_text of hello. -/
def frameA : List Nat := encode_packet (send_text stA0 helloBytes BROADCAST_ADDR 0).2

/-- Node B of the spec scenario: fresh engine, distinct node id. -/
def stB0 : MeshtasticProtocol :=
  { node_id := 0x20000002, packet_id_counter := 0, seen_packets := [], nodes := [] }

/-- The packet node B decodes from node A's frame. -/
def pktB : MeshPacket :=
  (decode_packet frameA).getD { «to» := 0, from_node := 0, id := 0 }

/-- Engine state whose dedup cache already holds id 5, first seen at time 10. -/
def stSeen : MeshtasticProtocol :=
  { node_id := 1, packet_id_counter := 0, seen_packets := [(5, 10)], nodes := [] }

/-- A broadcast text packet with id 5 from another node. -/
def pkt5 : MeshPacket := { «to» := BROADCAST_ADDR, from_node := 3, id := 5 }

/-- Engine state with one node entry, last seen at time 0. -/
def stN : MeshtasticProtocol :=
  { node_id := 1, packet_id_counter := 0, seen_packets := [],
    nodes := [(7, { id := 7, last_seen := 0, rssi := 0, snr := 0 })] }

/-- A packet whose port is the PRIVATE_APP member (value 256) of PortNum. -/
def pktPrivatePort : MeshPacket :=
  { «to» := 1, from_node := 2, id := 3, port_num := PortNum.PRIVATE_APP }

/-- A sample valid packet for concrete round-trip and bit-flip checks. -/
def samplePacket : MeshPacket :=
  { «to» := 0xFFFFFFFF, from_node := 0x10000001, id := 42, hop_limit := 5,
    want_ack := true, port_num := 1, payload := [104, 105] }

/-- A broadcast packet with exhausted hop limit. -/
def pktHop0 : MeshPacket :=
  { «to» := BROADCAST_ADDR, from_node := 3, id := 9, hop_limit := 0 }

/-- A packet addressed exactly to node B's id, with hops remaining. -/
def pktToB : MeshPacket :=
  { «to» := 0x20000002, from_node := 3, id := 10, hop_limit := 5 }

/-- Validity of a MeshPacket in the sense of the round-trip property: the
payload is at most 255 bytes of byte values, the hop limit fits its 3 bits,
the addressing and id fields fit 32 bits, the port fits one byte. -/
def validPacket (p : MeshPacket) : Prop :=
  p.payload.length ≤ 255 ∧ p.hop_limit ≤ 7 ∧ p.to < 4294967296 ∧
    p.from_node < 4294967296 ∧ p.id < 4294967296 ∧ p.port_num < 256 ∧
    ∀ b ∈ p.payload, b < 256

instance (p : MeshPacket) : Decidable (validPacket p) := by
  unfold validPacket; infer_instance

/-- One-bit modification of a frame: XOR bit k (k below 8 for byte frames)
into the byte at position i. -/
def flipBit (data : List Nat) (i k : Nat) : List Nat :=
  data.set i (data.getD i 0 ^^^ 2 ^ k)

/-! Helper lemmas about the dict model and the engine's state transitions. -/

/-- Auxiliary step for the in-place-update branch of dictSet: if the key
occurs in the dict, the first surviving occurrence after the overwrite and a
filter that keeps the new entry is the new entry. -/
theorem find?_filter_overwrite {α : Type} (k : Nat) (v : α) (q : Nat × α → Bool)
    (hq : q (k, v) = true) (m : List (Nat × α))
    (hm : m.any (fun e => e.1 == k) = true) :
    ((m.map (fun e => if e.1 == k then (k, v) else e)).filter q).find?
      (fun e => e.1 == k) = some (k, v) := by
  induction m with
  | nil => simp at hm
  | cons a t ih =>
    by_cases ha : a.1 = k
    · simp [List.filter_cons, ha, hq, List.find?]
    · have hfa : (a.1 == k) = false := by simpa using ha
      have ht : t.any (fun e => e.1 == k) = true := by
        simp only [List.any_cons, Bool.or_eq_true] at hm
        rcases hm with hmm | hmm
        · rw [hfa] at hmm; cases hmm
        · exact hmm
      simp only [List.map_cons, hfa, Bool.false_eq_true, if_false, List.filter_cons]
      by_cases hqa : q a = true
      · rw [if_pos hqa]
        simp only [List.find?_cons, hfa, cond_false]
        exact ih ht
      · rw [if_neg hqa]
        exact ih ht

/-- After d[k] = v and a filter that keeps (k, v), looking up k yields v. -/
theorem dictGet?_filter_dictSet {α : Type} (m : List (Nat × α)) (k : Nat) (v : α)
    (q : Nat × α → Bool) (hq : q (k, v) = true) :
    dictGet? ((dictSet m k v).filter q) k = some v := by
  unfold dictSet
  by_cases h : dictHas m k = true
  · rw [if_pos h]
    unfold dictHas at h
    unfold dictGet?
    rw [find?_filter_overwrite k v q hq m h]
    rfl
  · rw [if_neg h]
    unfold dictGet?
    have hnone : (m.filter q).find? (fun e => e.1 == k) = none := by
      rw [List.find?_eq_none]
      intro x hx
      have hxm : x ∈ m := List.mem_of_mem_filter hx
      unfold dictHas at h
      simp only [List.any_eq_true, not_exists, not_and, Bool.not_eq_true] at h
      have := h x hxm
      simp [this]
    rw [List.filter_append, List.find?_append, hnone]
    simp [List.filter_cons, hq, List.find?]

/-- After d[k] = v, looking up k yields v. -/
theorem dictGet?_dictSet {α : Type} (m : List (Nat × α)) (k : Nat) (v : α) :
    dictGet? (dictSet m k v) k = some v := by
  have h := dictGet?_filter_dictSet m k v (fun _ => true) rfl
  simpa [List.filter_true] using h

/-- A successful lookup implies key membership. -/
theorem dictHas_of_dictGet? {α : Type} (m : List (Nat × α)) (k : Nat) (v : α)
    (h : dictGet? m k = some v) : dictHas m k = true := by
  unfold dictGet? at h
  unfold dictHas
  cases hf : m.find? (fun e => e.1 == k) with
  | none => rw [hf] at h; simp at h
  | some e =>
    have he : e ∈ m := List.mem_of_find?_eq_some hf
    have hp := List.find?_some hf
    rw [List.any_eq_true]
    exact ⟨e, he, by simpa using hp⟩

/-- process_received_packet never changes the engine's own node id. -/
theorem process_node_id (st : MeshtasticProtocol) (p : MeshPacket) (now : Int) :
    (process_received_packet st p now).1.node_id = st.node_id := by
  by_cases hd : dictHas st.nodes p.from_node = true <;>
    simp [process_received_packet, cleanOldPackets, updateNode, hd]

/-- The surfaced message of process_received_packet is the delivery decision
on the incoming engine state. -/
theorem process_snd (st : MeshtasticProtocol) (p : MeshPacket) (now : Int) :
    (process_received_packet st p now).2 = deliverMessage st.node_id p := rfl

/-- The dedup cache after process_received_packet: the id overwritten with
the current time, then the staleness filter. -/
theorem process_seen (st : MeshtasticProtocol) (p : MeshPacket) (now : Int) :
    (process_received_packet st p now).1.seen_packets =
      (dictSet st.seen_packets p.id now).filter
        (fun e => !(now - e.2 > PACKET_TIMEOUT_S)) := by
  by_cases hd : dictHas st.nodes p.from_node = true <;>
    simp [process_received_packet, cleanOldPackets, updateNode, hd]

/-- The freshly recorded dedup entry survives the staleness filter that runs
in the same processing step. -/
theorem process_seen_get (st : MeshtasticProtocol) (p : MeshPacket) (now : Int) :
    dictGet? (process_received_packet st p now).1.seen_packets p.id = some now := by
  rw [process_seen]
  refine dictGet?_filter_dictSet _ _ _ _ ?_
  simp [PACKET_TIMEOUT_S]

/-! Claim theorems. -/

/-- Claim C1: in the spec's node-A-to-node-B hello scenario the decoded
frame carries to = broadcast, from = 0x10000001, hop_limit 3, the text
port and payload hello, and the flood-forward decision taken on the state
before processing would be true, with the rebroadcast packet carrying
hop_limit 2; but the inbound pipeline of LoRaModule.receive_messages
consults should_rebroadcast only after process_received_packet has
recorded the packet id in seen_packets, so the message is delivered while
the flood-forward decision comes out false and no rebroadcast packet is
produced. This evaluates the code at the claim's failing input. -/
theorem scenario_flood_forward_dead :
    decode_packet frameA = some pktB ∧
    pktB.to = BROADCAST_ADDR ∧ pktB.from_node = 0x10000001 ∧
    pktB.hop_limit = 3 ∧ pktB.port_num = PortNum.TEXT_MESSAGE_APP ∧
    pktB.payload = helloBytes ∧
    should_rebroadcast stB0 pktB = true ∧
    (rebroadcast_packet pktB).hop_limit = 2 ∧
    (receive_inbound stB0 frameA 5).2.1 = some helloBytes ∧
    (receive_inbound stB0 frameA 5).2.2.1 = false ∧
    (receive_inbound stB0 frameA 5).2.2.2 = none := by decide

/-- Counterexample to claim C2: delivering the same decoded packet to the
same fresh engine twice surfaces the payload both times; the second
delivery is not dropped as a duplicate. -/
theorem second_delivery_not_dropped :
    (process_received_packet stB0 pktB 5).2 = some helloBytes ∧
    (process_received_packet (process_received_packet stB0 pktB 5).1 pktB 6).2 =
      some helloBytes := by decide

/-- Claim C2 (amended): process_received_packet never consults the dedup
cache for delivery, so processing the same packet a second time yields
exactly the outcome of the first processing rather than Dropped(Duplicate);
the cache only forces the flood-forward decision false once the packet has
been processed. -/
theorem process_no_dedup_on_delivery (st : MeshtasticProtocol) (p : MeshPacket)
    (n1 n2 : Int) :
    (process_received_packet (process_received_packet st p n1).1 p n2).2 =
      (process_received_packet st p n1).2 ∧
    should_rebroadcast (process_received_packet st p n1).1 p = false := by
  constructor
  · rw [process_snd, process_snd, process_node_id]
  · have h1 : dictHas (process_received_packet st p n1).1.seen_packets p.id = true :=
      dictHas_of_dictGet? _ _ _ (process_seen_get st p n1)
    unfold should_rebroadcast
    rw [h1]
    rfl

/-- Counterexample to claim C3: an id already present in the dedup cache
with first-seen timestamp 10 is re-recorded at time 100 and the stored
timestamp changes to 100. -/
theorem dedup_entry_overwritten :
    dictGet? stSeen.seen_packets 5 = some 10 ∧
    dictGet? (process_received_packet stSeen pkt5 100).1.seen_packets 5 =
      some 100 := by decide

/-- Claim C3 (amended): recording a packet id in the dedup cache overwrites
the stored timestamp with the current time, via inbound processing as well
as via send_text; an entry whose id is recorded again is refreshed, not
left unchanged. -/
theorem mark_seen_overwrites (st : MeshtasticProtocol) (p : MeshPacket)
    (tb : List Nat) («to» : Nat) (now : Int) :
    dictGet? (process_received_packet st p now).1.seen_packets p.id = some now ∧
    dictGet? (send_text st tb «to» now).1.seen_packets
      (send_text st tb «to» now).2.id = some now := by
  refine ⟨process_seen_get st p now, ?_⟩
  show dictGet? (dictSet st.seen_packets _ now) _ = some now
  exact dictGet?_dictSet _ _ _

/-- Claim C6: should_rebroadcast is false whenever the hop limit is
exhausted, and false whenever the packet is addressed exactly to the
receiving engine's own node id, whatever the hop limit. -/
theorem should_rebroadcast_guards (st : MeshtasticProtocol) (p : MeshPacket) :
    (p.hop_limit = 0 → should_rebroadcast st p = false) ∧
    (p.to = st.node_id → should_rebroadcast st p = false) := by
  constructor
  · intro h
    simp [should_rebroadcast, h]
  · intro h
    simp [should_rebroadcast, h]

/-- Witness for claim C6 at concrete inputs: a hop-exhausted broadcast
packet and a packet addressed exactly to the engine. -/
theorem should_rebroadcast_guards_witness :
    should_rebroadcast stB0 pktHop0 = false ∧
    should_rebroadcast stB0 pktToB = false :=
  ⟨(should_rebroadcast_guards stB0 pktHop0).1 rfl,
   (should_rebroadcast_guards stB0 pktToB).2 rfl⟩

/-- Counterexample to claim C8: a node entry exactly at the staleness
boundary (now minus last_seen equal to the timeout) is excluded by
get_mesh_nodes, though the claim's condition now - last_seen at most the
timeout holds for it. -/
theorem stale_boundary_excluded :
    stN.nodes = [(7, { id := 7, last_seen := 0, rssi := 0, snr := 0 })] ∧
    ((600 : Int) - 0 ≤ STALE_TIMEOUT) ∧
    get_mesh_nodes stN 600 = [] := by decide

/-- Claim C8 (amended): a node observed at time t0 by a fresh node table is
returned by get_mesh_nodes at time now exactly while now - t0 is strictly
below the staleness timeout; at now - t0 equal to the timeout it is already
excluded. -/
theorem node_staleness_strict (st : MeshtasticProtocol) (p : MeshPacket)
    (t0 now : Int) (h : st.nodes = []) :
    get_mesh_nodes (process_received_packet st p t0).1 now =
      if now - t0 < STALE_TIMEOUT then
        [{ id := p.from_node
           last_seen := t0
           rssi := p.rx_rssi
           snr := p.rx_snr }]
      else [] := by
  have hn : (process_received_packet st p t0).1.nodes =
      [(p.from_node,
        { id := p.from_node
          last_seen := t0
          rssi := p.rx_rssi
          snr := p.rx_snr })] := by
    simp [process_received_packet, cleanOldPackets, updateNode, h, dictHas]
  unfold get_mesh_nodes
  rw [hn]
  by_cases hc : now - t0 < STALE_TIMEOUT
  · simp [List.filter_cons, hc]
  · simp [List.filter_cons, hc]

/-- Witness for claim C8: a node observed at time 0 is gone from the active
list at time 600 exactly. -/
theorem node_staleness_strict_witness :
    get_mesh_nodes (process_received_packet stB0 pkt5 0).1 600 = [] := by
  have h := node_staleness_strict stB0 pkt5 0 600 rfl
  norm_num [STALE_TIMEOUT] at h
  exact h

/-- Counterexample to claim C9: send_node_info does not record the packet id
it allocates; on a fresh engine the dedup cache stays empty. -/
theorem node_info_not_marked_seen :
    (send_node_info stA0).1.seen_packets = [] ∧
    dictHas (send_node_info stA0).1.seen_packets (send_node_info stA0).2.id =
      false :=
  ⟨rfl, rfl⟩

/-- Claim C9 (amended): both send operations stamp the packet with the
engine's own node id as sender, and send_text records the allocated id in
the dedup cache before returning; send_node_info returns its packet without
touching the cache. -/
theorem send_from_and_dedup (st : MeshtasticProtocol) (tb : List Nat)
    («to» : Nat) (now : Int) :
    (send_text st tb «to» now).2.from_node = st.node_id ∧
    dictHas (send_text st tb «to» now).1.seen_packets
      (send_text st tb «to» now).2.id = true ∧
    (send_node_info st).2.from_node = st.node_id ∧
    (send_node_info st).1.seen_packets = st.seen_packets := by
  refine ⟨rfl, ?_, rfl, rfl⟩
  show dictHas (dictSet st.seen_packets _ now) _ = true
  exact dictHas_of_dictGet? _ _ _ (dictGet?_dictSet _ _ _)

/-- Claim C10: a packet with a port above one byte (notably PRIVATE_APP =
256), an id, to or from field beyond 32 bits, or a payload longer than
65535 bytes makes a struct.pack call raise, and encode_packet returns the
empty byte string from its except clause. -/
theorem encode_out_of_range_empty (p : MeshPacket)
    (h : 256 ≤ p.port_num ∨ 4294967296 ≤ p.to ∨ 4294967296 ≤ p.from_node ∨
      4294967296 ≤ p.id ∨ 65536 ≤ p.payload.length) :
    encode_packet p = [] := by
  unfold encode_packet
  rw [if_neg]
  unfold encodeOk
  omega

/-- Witness for claim C10: the defined PRIVATE_APP port value 256 makes
encode_packet return the empty frame. -/
theorem encode_out_of_range_empty_witness :
    256 ≤ pktPrivatePort.port_num ∧ encode_packet pktPrivatePort = [] :=
  ⟨by decide, encode_out_of_range_empty pktPrivatePort (Or.inl (by decide))⟩

/-- Counterexample to claim C5: a 16-byte input whose trailing byte equals
the additive sum modulo 256 of the preceding bytes still fails to decode
(the 2-byte length field needs bytes at offsets 15 and 16, so its
struct.unpack raises on a 16-byte input). -/
theorem sixteen_byte_valid_sum_rejected :
    (List.replicate 16 (0 : Nat)).getD 15 0 =
      ((List.replicate 16 (0 : Nat)).take 15).sum % 256 ∧
    decodeE (List.replicate 16 0) = .error .unpackError := by decide

/-- Claim C5 (amended): decoding fails with TooShort exactly when the input
is shorter than 16 bytes; a 16-byte input always fails too, with the
struct.error of the 2-byte length unpack, so the minimum successfully
decodable length is 17 bytes, and the all-zero 17-byte input (whose
trailing byte equals the additive sum modulo 256 of the preceding bytes)
decodes successfully. -/
theorem decode_min_length (d : List Nat) :
    (decodeE d = .error .tooShort ↔ d.length < 16) ∧
    (d.length = 16 → decodeE d = .error .unpackError) ∧
    decodeE (List.replicate 17 0) =
      .ok { «to» := 0, from_node := 0, id := 0, hop_limit := 0,
            want_ack := false, port_num := 0, payload := [] } := by
  refine ⟨⟨?_, ?_⟩, ?_, by decide⟩
  · intro h
    by_cases hlen : d.length < 16
    · exact hlen
    · exfalso
      unfold decodeE at h
      rw [if_neg hlen] at h
      split at h
      · simp at h
      · split at h <;> simp at h
  · intro h
    unfold decodeE
    rw [if_pos h]
  · intro h16
    have h2 : ((d.drop 15).take 2).length ≠ 2 := by
      rw [List.length_take, List.length_drop, h16]
      decide
    unfold decodeE
    rw [if_neg (by omega), if_pos h2]

/-- Witness for claim C5: the TooShort boundary and the 16-byte unpack
failure at concrete inputs. -/
theorem decode_min_length_witness :
    decodeE (List.replicate 15 0) = .error .tooShort ∧
    decodeE (List.replicate 16 0) = .error .unpackError :=
  ⟨(decode_min_length (List.replicate 15 0)).1.2 (by decide),
   (decode_min_length (List.replicate 16 0)).2.1 (by decide)⟩

/-- Claim C4: encode followed by decode reconstructs every wire field (to,
from, id, hop_limit, want_ack, port, payload) of a valid packet exactly;
the reception-side fields of the decoded packet are at their dataclass
defaults. -/
theorem decode_encode_roundtrip (p : MeshPacket) (h : validPacket p) :
    decode_packet (encode_packet p) =
      some { «to» := p.to
             from_node := p.from_node
             id := p.id
             hop_limit := p.hop_limit
             want_ack := p.want_ack
             port_num := p.port_num
             payload := p.payload } := by
  obtain ⟨hplen, hhop, hto, hfrom, hid, hport, -⟩ := h
  have hok : encodeOk p := ⟨hto, hfrom, hid, hport, by omega⟩
  have hbl : (encodeBody p).length = 17 + p.payload.length := by
    simp [encodeBody, le4, le2]
    omega
  unfold decode_packet encode_packet
  rw [if_pos hok]
  have hdl : (encodeBody p ++ [(encodeBody p).sum % 256]).length =
      18 + p.payload.length := by
    simp [List.length_append, hbl]
    omega
  have e1 : (encodeBody p ++ [(encodeBody p).sum % 256]).length - 1 =
      (encodeBody p).length := by
    rw [hdl, hbl]
    omega
  have c1 : ¬ ((encodeBody p ++ [(encodeBody p).sum % 256]).length < 16) := by
    rw [hdl]; omega
  have c2 : ¬ ((((encodeBody p ++ [(encodeBody p).sum % 256]).drop 15).take 2).length ≠ 2) := by
    simp only [List.length_take, List.length_drop, hdl]
    omega
  have egetD : (encodeBody p ++ [(encodeBody p).sum % 256]).getD
      ((encodeBody p ++ [(encodeBody p).sum % 256]).length - 1) 0 =
      (encodeBody p).sum % 256 := by
    rw [e1, List.getD_append_right _ _ _ _ le_rfl]
    simp
  have etake : (encodeBody p ++ [(encodeBody p).sum % 256]).take
      ((encodeBody p ++ [(encodeBody p).sum % 256]).length - 1) = encodeBody p := by
    rw [e1]
    exact List.take_left _ _
  have c3 : ¬ ((encodeBody p ++ [(encodeBody p).sum % 256]).getD
      ((encodeBody p ++ [(encodeBody p).sum % 256]).length - 1) 0 ≠
      ((encodeBody p ++ [(encodeBody p).sum % 256]).take
        ((encodeBody p ++ [(encodeBody p).sum % 256]).length - 1)).sum % 256) := by
    rw [egetD, etake]
    simp
  unfold decodeE
  rw [if_neg c1, if_neg c2, if_neg c3]
  have hcons : encodeBody p ++ [(encodeBody p).sum % 256] =
      p.to % 256 :: p.to / 256 % 256 :: p.to / 65536 % 256 :: p.to / 16777216 % 256 ::
      p.from_node % 256 :: p.from_node / 256 % 256 :: p.from_node / 65536 % 256 ::
      p.from_node / 16777216 % 256 ::
      p.id % 256 :: p.id / 256 % 256 :: p.id / 65536 % 256 :: p.id / 16777216 % 256 ::
      flagsOf p :: p.port_num :: p.payload.length % 256 ::
      p.payload.length % 256 :: p.payload.length / 256 % 256 ::
      (p.payload ++ [(encodeBody p).sum % 256]) := by
    simp [encodeBody, le4, le2]
  rw [hcons]
  simp only [List.getD_cons_zero, List.getD_cons_succ, List.drop_succ_cons,
    List.drop_zero, Except.toOption, Option.some.injEq, MeshPacket.mk.injEq,
    and_true, true_and]
  have hlen255 : p.payload.length % 256 = p.payload.length := Nat.mod_eq_of_lt (by omega)
  have hlendiv : p.payload.length / 256 % 256 = 0 := by
    rw [Nat.div_eq_of_lt (by omega)]
  refine ⟨by omega, by omega, by omega, ?_, ?_, ?_⟩
  · unfold flagsOf
    split <;> omega
  · have hv : flagsOf p / 8 % 2 = if p.want_ack then 1 else 0 := by
      unfold flagsOf
      split <;> omega
    rw [hv]
    cases hw : p.want_ack <;> simp
  · rw [hlen255, hlendiv]
    have hz : p.payload.length + 256 * 0 = p.payload.length := by omega
    rw [hz]
    exact List.take_left _ _

/-- Replacing one element of a list of naturals changes the sum by the
difference of new and old element (stated without truncated subtraction). -/
theorem sum_set_add (l : List Nat) (i v : Nat) (h : i < l.length) :
    (l.set i v).sum + l.getD i 0 = l.sum + v := by
  induction l generalizing i with
  | nil => simp at h
  | cons a t ih =>
    cases i with
    | zero =>
      simp only [List.set, List.sum_cons, List.getD_cons_zero]
      omega
    | succ n =>
      simp only [List.set_cons_succ, List.sum_cons, List.getD_cons_succ]
      have := ih n (by simpa using h)
      omega

/-- Flipping one bit of a natural changes it. -/
theorem xor_two_pow_ne (b k : Nat) : b ^^^ 2 ^ k ≠ b := by
  intro h
  have hb := congrArg (fun x => Nat.testBit x k) h
  simp only [Nat.testBit_xor, Nat.testBit_two_pow_self, Bool.xor_true] at hb
  exact (Bool.not_eq_self _).mp hb

/-- Flipping one of the low 8 bits of a natural changes it modulo 256. -/
theorem xor_mod_256_ne (b k : Nat) (hk : k < 8) :
    (b ^^^ 2 ^ k) % 256 ≠ b % 256 := by
  intro h
  have hb := congrArg (fun x => Nat.testBit x k) h
  have h256 : (256 : Nat) = 2 ^ 8 := rfl
  simp only [h256, Nat.testBit_mod_two_pow, Nat.testBit_xor,
    Nat.testBit_two_pow_self, Bool.xor_true, hk, decide_True, Bool.true_and] at hb
  exact (Bool.not_eq_self _).mp hb

/-- Setting the final element of an append-with-singleton. -/
theorem set_append_last {α : Type} (l : List α) (a v : α) :
    (l ++ [a]).set l.length v = l ++ [v] := by
  induction l with
  | nil => rfl
  | cons x t ih =>
    simp only [List.cons_append, List.length_cons, List.set_cons_succ, ih]

/-- The length of the pre-checksum body of an encoded frame. -/
theorem encodeBody_length (p : MeshPacket) :
    (encodeBody p).length = 17 + p.payload.length := by
  simp [encodeBody, le4, le2]
  omega

/-- A frame of body-plus-checksum shape whose trailing byte disagrees with
the additive sum of the body is rejected at the checksum comparison. -/
theorem decodeE_checksum_fail (B : List Nat) (c : Nat) (hB : 17 ≤ B.length)
    (hne : c ≠ B.sum % 256) : decodeE (B ++ [c]) = .error .checksumMismatch := by
  have e1 : (B ++ [c]).length - 1 = B.length := by simp
  have c1 : ¬ ((B ++ [c]).length < 16) := by simp; omega
  have c2 : ¬ ((((B ++ [c]).drop 15).take 2).length ≠ 2) := by
    simp [List.length_take, List.length_drop]
    omega
  have egetD : (B ++ [c]).getD ((B ++ [c]).length - 1) 0 = c := by
    rw [e1, List.getD_append_right _ _ _ _ le_rfl]
    simp
  have etake : (B ++ [c]).take ((B ++ [c]).length - 1) = B := by
    rw [e1]
    exact List.take_left _ _
  unfold decodeE
  rw [if_neg c1, if_neg c2, if_pos]
  rw [egetD, etake]
  exact hne

/-- Claim C7: flipping any single bit anywhere in a successfully encoded
frame makes decode reject the frame at the checksum comparison — the
additive checksum catches every single-bit change, so the exclusion for
accidentally valid checksums is vacuous. -/
theorem checksum_detects_bit_flip (p : MeshPacket) (i k : Nat)
    (h : encodeOk p) (hi : i < (encode_packet p).length) (hk : k < 8) :
    decodeE (flipBit (encode_packet p) i k) = .error .checksumMismatch := by
  have henc : encode_packet p = encodeBody p ++ [(encodeBody p).sum % 256] := by
    unfold encode_packet
    rw [if_pos h]
  rw [henc] at hi ⊢
  have hlen : (encodeBody p).length = 17 + p.payload.length := encodeBody_length p
  unfold flipBit
  rcases Nat.lt_or_ge i (encodeBody p).length with hiB | hiB
  · have hgd : (encodeBody p ++ [(encodeBody p).sum % 256]).getD i 0 =
        (encodeBody p).getD i 0 :=
      List.getD_append _ _ _ _ hiB
    rw [hgd, List.set_append_left _ _ hiB]
    apply decodeE_checksum_fail
    · rw [List.length_set]
      omega
    · have hs : ((encodeBody p).set i ((encodeBody p).getD i 0 ^^^ 2 ^ k)).sum +
          (encodeBody p).getD i 0 =
          (encodeBody p).sum + ((encodeBody p).getD i 0 ^^^ 2 ^ k) :=
        sum_set_add (encodeBody p) i ((encodeBody p).getD i 0 ^^^ 2 ^ k) hiB
      intro heq
      have h1 : (((encodeBody p).set i
          ((encodeBody p).getD i 0 ^^^ 2 ^ k)).sum +
            (encodeBody p).getD i 0) % 256 =
          ((encodeBody p).sum + (encodeBody p).getD i 0) % 256 := by
        rw [Nat.add_mod, ← heq, ← Nat.add_mod]
      rw [hs] at h1
      have h2 : ((encodeBody p).getD i 0 ^^^ 2 ^ k) % 256 =
          (encodeBody p).getD i 0 % 256 := by
        have hm : Nat.ModEq 256 ((encodeBody p).sum +
            ((encodeBody p).getD i 0 ^^^ 2 ^ k))
            ((encodeBody p).sum + (encodeBody p).getD i 0) := h1
        exact Nat.ModEq.add_left_cancel rfl hm
      exact xor_mod_256_ne _ _ hk h2
  · have hieq : i = (encodeBody p).length := by
      have hL : (encodeBody p ++ [(encodeBody p).sum % 256]).length =
          (encodeBody p).length + 1 := by simp
      omega
    subst hieq
    have hgd : (encodeBody p ++ [(encodeBody p).sum % 256]).getD
        ((encodeBody p).length) 0 = (encodeBody p).sum % 256 := by
      rw [List.getD_append_right _ _ _ _ le_rfl]
      simp
    rw [hgd, set_append_last]
    apply decodeE_checksum_fail
    · omega
    · exact xor_two_pow_ne ((encodeBody p).sum % 256) k

/-- Witness for claim C4: the round trip at a concrete valid packet. -/
theorem decode_encode_roundtrip_witness :
    validPacket samplePacket ∧
    decode_packet (encode_packet samplePacket) =
      some { «to» := samplePacket.to
             from_node := samplePacket.from_node
             id := samplePacket.id
             hop_limit := samplePacket.hop_limit
             want_ack := samplePacket.want_ack
             port_num := samplePacket.port_num
             payload := samplePacket.payload } :=
  ⟨by decide, decode_encode_roundtrip samplePacket (by decide)⟩

/-- Witness for claim C7: flipping bit 0 of byte 0 of a concrete encoded
frame is rejected at the checksum comparison. -/
theorem checksum_detects_bit_flip_witness :
    encodeOk samplePacket ∧
    decodeE (flipBit (encode_packet samplePacket) 0 0) =
      .error .checksumMismatch :=
  ⟨by decide,
   checksum_detects_bit_flip samplePacket 0 0 (by decide) (by decide) (by decide)⟩

end Meshtastic
